import Mathlib

/-!
Verification of the `game_scanner` core of cinny-desktop.

The Rust source (`src-tauri/src/game_scanner.rs`) is shallowly embedded
here: process and executable names are `List Char` (Rust strings restricted
to the ASCII operations the code uses), the nested scan loops become
structurally recursive functions that stop at the first match, and the
stateful pieces (enabled flag, catalog write loop, scan cycle) become
explicit state-passing functions.
-/

namespace GameScanner

/-- Names (process names, executable names, game names) as character lists. -/
abbrev Name := List Char

/-- `GameExecutable` from `game_scanner.rs`: one executable entry. -/
structure GameExecutable where
  os : Name
  name : Name
deriving DecidableEq, Repr

/-- `DetectableGame` from `game_scanner.rs`: a catalog signature.
`executables` is `Option` because the JSON field is nullable. -/
structure DetectableGame where
  id : Name
  name : Name
  executables : Option (List GameExecutable)
deriving DecidableEq, Repr

/-- `GameActivity` from `game_scanner.rs`: payload emitted to the frontend. -/
structure GameActivity where
  name : Name
  executable_name : Option Name
  is_running : Bool
deriving DecidableEq, Repr

/-- Rust `u8::to_ascii_lowercase` lifted to `Char`: maps `A`..`Z` down by 32,
leaves everything else alone. -/
def asciiLower (c : Char) : Char :=
  if 'A' ≤ c ∧ c ≤ 'Z' then Char.ofNat (c.toNat + 32) else c

/-- Rust `str::eq_ignore_ascii_case`: equality after ASCII-lowercasing. -/
def eqIgnoreAsciiCase (a b : Name) : Bool :=
  decide (a.map asciiLower = b.map asciiLower)

/-- Helper for `trimEndExe`: on the REVERSED character list, repeatedly
strip a leading `exe.` (i.e. a trailing `.exe` of the original string),
mirroring Rust `str::trim_end_matches(".exe")`, which removes all trailing
occurrences of the literal (case-sensitive) pattern. -/
def stripExeRev : List Char → List Char
  | 'e' :: 'x' :: 'e' :: '.' :: rest => stripExeRev rest
  | s => s

/-- Rust `name.trim_end_matches(".exe")`. -/
def trimEndExe (s : Name) : Name :=
  (stripExeRev s.reverse).reverse

/-- The comparison at `game_scanner.rs:134-137`: strip trailing `.exe` from
both sides, then compare ASCII-case-insensitively. -/
def matchesExe (exeName procName : Name) : Bool :=
  eqIgnoreAsciiCase (trimEndExe exeName) (trimEndExe procName)

/-- Inner loop over one signature's executables (`game_scanner.rs:132-143`):
first matching entry wins; returns that entry's name. -/
def findExeMatch (procName : Name) : List GameExecutable → Option Name
  | [] => none
  | e :: rest =>
    if matchesExe e.name procName then some e.name
    else findExeMatch procName rest

/-- Middle loop over the watch list (`game_scanner.rs:130-148`): signatures
with `executables = none` are skipped by the `if let`; the first signature
with a matching executable wins, yielding `(game.name, exe.name)`. -/
def findGameMatch (procName : Name) : List DetectableGame → Option (Name × Name)
  | [] => none
  | g :: rest =>
    match g.executables with
    | none => findGameMatch procName rest
    | some exes =>
      match findExeMatch procName exes with
      | some exe => some (g.name, exe)
      | none => findGameMatch procName rest

/-- Outer loop over running processes (`game_scanner.rs:127-152`): the first
process (in enumeration order) matching any signature determines the
detection result for the cycle. -/
def detectGame (procs : List Name) (catalog : List DetectableGame) : Option (Name × Name) :=
  match procs with
  | [] => none
  | p :: rest =>
    match findGameMatch p catalog with
    | some r => some r
    | none => detectGame rest catalog

/-- The event computation at `game_scanner.rs:155-195`: match on the pair
`(previous_game, detected_name)`; on `(None, Some)` a started event, on
`(Some, None)` a stopped event, on `(Some, Some)` with distinct names a
started event for the new game, otherwise no emission. The started payloads
carry `detected_exe`. -/
def computeEvent (previous detectedName detectedExe : Option Name) : Option GameActivity :=
  match previous, detectedName with
  | none, some n => some ⟨n, detectedExe, true⟩
  | some p, none => some ⟨p, none, false⟩
  | some p, some n =>
    if p ≠ n then some ⟨n, detectedExe, true⟩ else none
  | none, none => none

/-- The scanner's shared state as read and written by one scan cycle:
the watch list and `current_game` (`game_scanner.rs:33-38`). -/
structure ScanState where
  watch_list : List DetectableGame
  current_game : Option Name
deriving DecidableEq, Repr

/-- One pass of the scanning loop body (`game_scanner.rs:113-198`):
compute the detection result over the running-process list, compute the
event from `(previous_game, detected_name)`, then unconditionally
overwrite `current_game` with `detected_name`. Returns the new state and
the (optional) emitted event. -/
def scanCycle (s : ScanState) (procs : List Name) : ScanState × Option GameActivity :=
  let d := detectGame procs s.watch_list
  let detectedName := d.map Prod.fst
  let detectedExe := d.map Prod.snd
  let ev := computeEvent s.current_game detectedName detectedExe
  (⟨s.watch_list, detectedName⟩, ev)

/-- Iterate `scanCycle` over a list of per-cycle process samples, collecting
the emitted event (or `none`) of each cycle in order. -/
def runScan (s : ScanState) : List (List Name) → List (Option GameActivity)
  | [] => []
  | procs :: rest =>
    (scanCycle s procs).2 :: runScan (scanCycle s procs).1 rest

/-- Iterate `scanCycle` over a list of detection results directly (one
`detected_name`/`detected_exe` pair per cycle), collecting emitted events.
This isolates the transition logic of `game_scanner.rs:155-198` from the
matcher: the detection result of each cycle is supplied as input. -/
def runTransitions (previous : Option Name) :
    List (Option (Name × Name)) → List (Option GameActivity)
  | [] => []
  | d :: rest =>
    computeEvent previous (d.map Prod.fst) (d.map Prod.snd) ::
      runTransitions (d.map Prod.fst) rest

/-- The mock Calculator signature pushed by `fetch_detectable_games`
(`game_scanner.rs:62-69`). -/
def mockCalculator : DetectableGame :=
  ⟨"mock_calc_123".toList, "Calculator".toList,
    some [⟨"all".toList, "Calculator".toList⟩]⟩

/-- The pure normalization step of `fetch_detectable_games`
(`game_scanner.rs:52-72`): given the decoded remote list, keep it unfiltered
and push the mock Calculator signature at the end. -/
def fetchNormalize (games : List DetectableGame) : List DetectableGame :=
  games ++ [mockCalculator]

/-- One doubling step of the retry interval (`game_scanner.rs:91-94`):
the interval (in seconds) is doubled only while it is strictly below 60. -/
def nextRetryInterval (i : ℕ) : ℕ :=
  if i < 60 then i * 2 else i

/-- The wait (in seconds) before retry `n` (0-indexed) of the initial fetch
loop (`game_scanner.rs:78-97`): the first wait is 5 seconds, and after each
failed attempt the interval is updated by `nextRetryInterval`. -/
def backoffWait : ℕ → ℕ
  | 0 => 5
  | n + 1 => nextRetryInterval (backoffWait n)

/-- The initial fetch loop (`game_scanner.rs:81-97`) run over a finite trace
of fetch outcomes (`none` = failure, `some games` = success with the already
normalized list). On success the watch list is written and the loop breaks;
on failure the watch list is untouched and the loop retries. Returns the
final watch list and the number of writes performed. -/
def fetchLoopRun (watchList : List DetectableGame) :
    List (Option (List DetectableGame)) → List DetectableGame × ℕ
  | [] => (watchList, 0)
  | none :: rest => fetchLoopRun watchList rest
  | some games :: _ => (games, 1)

/-- State touched by `set_scanner_enabled`: the enabled flag, plus a counter
of `notify_one` calls (raises of the wake signal) for specification purposes. -/
structure ControlState where
  is_enabled : Bool
  wake_raises : ℕ
deriving DecidableEq, Repr

/-- `set_scanner_enabled` (`game_scanner.rs:40-49`): if the desired value
differs from the current flag, assign it and raise the wake signal once;
otherwise do nothing. -/
def set_scanner_enabled (s : ControlState) (enabled : Bool) : ControlState :=
  if s.is_enabled ≠ enabled then
    ⟨enabled, s.wake_raises + 1⟩
  else
    s

/-- The signature of the C1 scenario: `{id:"g1", name:"Game One",
executables:[{os:"all", name:"game1"}]}`. -/
def gameOne : DetectableGame :=
  ⟨"g1".toList, "Game One".toList, some [⟨"all".toList, "game1".toList⟩]⟩

/-- The started event the C1 scenario expects:
`{name:"Game One", executable_name:"game1", is_running:true}`. -/
def gameOneStarted : GameActivity :=
  ⟨"Game One".toList, some "game1".toList, true⟩

/-- A signature named `Alpha` with sole executable `alpha`. -/
def sigAlpha : DetectableGame :=
  ⟨"idA".toList, "Alpha".toList, some [⟨"all".toList, "alpha".toList⟩]⟩

/-- A signature named `Beta` with sole executable `beta`. -/
def sigBeta : DetectableGame :=
  ⟨"idB".toList, "Beta".toList, some [⟨"all".toList, "beta".toList⟩]⟩

end GameScanner

namespace GameScanner

lemma scanCycle_gameOne_first :
    scanCycle ⟨[gameOne], none⟩ ["Game1.exe".toList] =
      (⟨[gameOne], some "Game One".toList⟩, some gameOneStarted) := by
  decide

lemma scanCycle_gameOne_steady :
    scanCycle ⟨[gameOne], some "Game One".toList⟩ ["Game1.exe".toList] =
      (⟨[gameOne], some "Game One".toList⟩, none) := by
  decide

lemma runScan_gameOne_steady (m : ℕ) :
    runScan ⟨[gameOne], some "Game One".toList⟩
      (List.replicate m ["Game1.exe".toList]) = List.replicate m none := by
  induction m with
  | zero => rfl
  | succ m ih =>
    simp only [List.replicate_succ, runScan, scanCycle_gameOne_steady, ih]

lemma findGameMatch_filter (p : Name) (catalog : List DetectableGame) :
    findGameMatch p (catalog.filter fun g => g.executables.isSome) =
      findGameMatch p catalog := by
  induction catalog with
  | nil => rfl
  | cons g rest ih =>
    cases hg : g.executables with
    | none => simp [List.filter_cons, hg, findGameMatch, ih]
    | some exes =>
      cases he : findExeMatch p exes <;>
        simp [List.filter_cons, hg, findGameMatch, he, ih]

lemma findGameMatch_all_none (p : Name) (catalog : List DetectableGame)
    (h : ∀ g ∈ catalog, g.executables = none) :
    findGameMatch p catalog = none := by
  induction catalog with
  | nil => rfl
  | cons g rest ih =>
    have hg : g.executables = none := h g (by simp)
    simp only [findGameMatch, hg]
    exact ih fun g' hg' => h g' (by simp [hg'])

/-- C1 (counterexample): with the scenario catalog (signature `Game One`,
executable `game1`) and a running process named `Game1.EXE`, the matcher
detects nothing and the first scan cycle emits no event at all — the
claimed started event is not produced, because `trim_end_matches(".exe")`
is case-sensitive and leaves the `.EXE` suffix in place. -/
theorem C1_counterexample :
    detectGame ["Game1.EXE".toList] [gameOne] = none ∧
    (scanCycle ⟨[gameOne], none⟩ ["Game1.EXE".toList]).2 = none := by
  decide

/-- C1 (amended): same scenario with the running process named `Game1.exe`
(lowercase suffix): over any number of consecutive cycles with that process
present, the first cycle emits the single started event
`{name:"Game One", executable_name:"game1", is_running:true}` and every
subsequent cycle emits nothing. -/
theorem C1_amended (n : ℕ) :
    runScan ⟨[gameOne], none⟩ (List.replicate (n + 1) ["Game1.exe".toList]) =
      some gameOneStarted :: List.replicate n none := by
  simp only [List.replicate_succ, runScan, scanCycle_gameOne_first,
    runScan_gameOne_steady]

/-- C2: evaluation of the retry backoff. The waits before retries 0..5 are
5, 10, 20, 40, 80, 80 seconds, and from the fifth wait on the interval is
80 seconds forever: the doubling is guarded by `< 60` *before* the
multiplication, so 40 doubles to 80 and is never clamped to 60, contrary
to the claim (and to the code's own `Cap retry interval at 60 seconds`
comment). -/
theorem C2_backoff_evaluation :
    backoffWait 0 = 5 ∧ backoffWait 1 = 10 ∧ backoffWait 2 = 20 ∧
    backoffWait 3 = 40 ∧ backoffWait 4 = 80 ∧ backoffWait 5 = 80 ∧
    (∀ n : ℕ, backoffWait (n + 4) = 80) := by
  refine ⟨rfl, rfl, rfl, rfl, rfl, rfl, ?_⟩
  intro n
  induction n with
  | zero => rfl
  | succ n ih =>
    show nextRetryInterval (backoffWait (n + 4)) = 80
    rw [ih]
    rfl

/-- C3 (counterexample): catalog `[Alpha, Beta]`, running processes
enumerated as `[beta, alpha]`. Both signatures have an executable matching
a running process (`Alpha` matches `alpha`, `Beta` matches `beta`), yet the
detection result is `Beta`, not the catalog-earliest `Alpha`: the process
loop is outermost, so process-enumeration order dominates catalog order. -/
theorem C3_counterexample :
    findGameMatch "alpha".toList [sigAlpha, sigBeta] =
      some ("Alpha".toList, "alpha".toList) ∧
    findGameMatch "beta".toList [sigAlpha, sigBeta] =
      some ("Beta".toList, "beta".toList) ∧
    detectGame ["beta".toList, "alpha".toList] [sigAlpha, sigBeta] =
      some ("Beta".toList, "beta".toList) ∧
    "Beta".toList ≠ "Alpha".toList := by
  decide

/-- C3 (amended): the detection result is determined by process-enumeration
order first — it equals the first non-`none` per-process match, in process
order — and only ties among signatures matching the *same* process are
resolved by catalog order: a signature earlier in the catalog whose
executables match the process wins over everything after it. -/
theorem C3_amended :
    (∀ (procs : List Name) (catalog : List DetectableGame),
        detectGame procs catalog =
          procs.findSome? fun p => findGameMatch p catalog) ∧
    (∀ (p : Name) (g : DetectableGame) (rest : List DetectableGame)
        (exes : List GameExecutable) (e : Name),
        g.executables = some exes → findExeMatch p exes = some e →
          findGameMatch p (g :: rest) = some (g.name, e)) := by
  constructor
  · intro procs catalog
    induction procs with
    | nil => rfl
    | cons p ps ih =>
      cases h : findGameMatch p catalog <;>
        simp [detectGame, List.findSome?, h, ih]
  · intro p g rest exes e h1 h2
    simp [findGameMatch, h1, h2]

/-- C3 amended witness: at the counterexample input, the first enumerated
process `beta` already matches, so the result is `Beta`; and within the
single process `alpha`, the catalog-earliest signature `Alpha` wins. -/
theorem C3_amended_witness :
    detectGame ["beta".toList, "alpha".toList] [sigAlpha, sigBeta] =
      (["beta".toList, "alpha".toList].findSome? fun p =>
        findGameMatch p [sigAlpha, sigBeta]) ∧
    findGameMatch "alpha".toList (sigAlpha :: [sigBeta]) =
      some (sigAlpha.name, "alpha".toList) :=
  ⟨C3_amended.1 ["beta".toList, "alpha".toList] [sigAlpha, sigBeta],
    C3_amended.2 "alpha".toList sigAlpha [sigBeta] _ "alpha".toList rfl rfl⟩

/-- C4: the transition/event logic. A started event is emitted on
`none → some`, a stopped event on `some → none`, a single started event
for the new game on a switch between distinct games (no stop event for the
old one), and nothing when the value is unchanged; on the detection
sequence `none, some A, some A, some B, none` the emitted events are
exactly `[started A, started B, stopped B]`. -/
theorem C4_transition_events :
    (∀ (x : Name) (e : Option Name),
        computeEvent none (some x) e = some ⟨x, e, true⟩) ∧
    (∀ (x : Name) (e : Option Name),
        computeEvent (some x) none e = some ⟨x, none, false⟩) ∧
    (∀ (x y : Name) (e : Option Name), x ≠ y →
        computeEvent (some x) (some y) e = some ⟨y, e, true⟩) ∧
    (∀ (x : Name) (e : Option Name),
        computeEvent (some x) (some x) e = none) ∧
    (∀ e : Option Name, computeEvent none none e = none) ∧
    (runTransitions none
        [none, some ("A".toList, "a".toList), some ("A".toList, "a".toList),
          some ("B".toList, "b".toList), none]).reduceOption =
      [⟨"A".toList, some "a".toList, true⟩, ⟨"B".toList, some "b".toList, true⟩,
        ⟨"B".toList, none, false⟩] := by
  refine ⟨fun x e => rfl, fun x e => rfl, ?_, fun x e => by simp [computeEvent],
    fun e => rfl, by decide⟩
  intro x y e h
  simp [computeEvent, h]

/-- C4 witness: a concrete switch `A → B` emits the single started event
for `B`. -/
theorem C4_transition_events_witness :
    computeEvent (some "A".toList) (some "B".toList) (some "b".toList) =
      some ⟨"B".toList, some "b".toList, true⟩ :=
  C4_transition_events.2.2.1 "A".toList "B".toList (some "b".toList) (by decide)

/-- C5: the executable/process name comparison is symmetric — the two
sides are interchangeable, since each side is suffix-stripped and
lowercased the same way — and concretely `foo` matches `Foo.exe` and
`Foo.exe` matches `foo`. -/
theorem C5_matching_symmetric :
    (∀ a b : Name, matchesExe a b = matchesExe b a) ∧
    matchesExe "foo".toList "Foo.exe".toList = true ∧
    matchesExe "Foo.exe".toList "foo".toList = true := by
  refine ⟨?_, by decide, by decide⟩
  intro a b
  simp only [matchesExe, eqIgnoreAsciiCase]
  rw [decide_eq_decide]
  exact eq_comm

/-- C6: for every remote list (including the empty one), the catalog
produced by the fetch normalization ends with the synthetic mock
Calculator signature, and the remote-supplied signatures form its prefix
in their original order. -/
theorem C6_mock_appended_last (gs : List DetectableGame) :
    (fetchNormalize gs).getLast? = some mockCalculator ∧
    (fetchNormalize gs).take gs.length = gs := by
  constructor
  · simp [fetchNormalize]
  · simp [fetchNormalize, List.take_left]

/-- C7: `set_scanner_enabled` is a no-op (flag unchanged, no wake raised)
when the desired value equals the current flag, and otherwise assigns the
desired value and raises the wake signal exactly once. -/
theorem C7_set_enabled (s : ControlState) (d : Bool) :
    (s.is_enabled = d → set_scanner_enabled s d = s) ∧
    (s.is_enabled ≠ d →
      set_scanner_enabled s d = ⟨d, s.wake_raises + 1⟩) := by
  constructor <;> intro h <;> simp [set_scanner_enabled, h]

/-- C7 witness: disabling an already-disabled scanner changes nothing;
enabling a disabled scanner flips the flag and raises exactly one wake. -/
theorem C7_set_enabled_witness :
    set_scanner_enabled ⟨false, 0⟩ false = ⟨false, 0⟩ ∧
    set_scanner_enabled ⟨false, 3⟩ true = ⟨true, 3 + 1⟩ :=
  ⟨(C7_set_enabled ⟨false, 0⟩ false).1 rfl,
    (C7_set_enabled ⟨false, 3⟩ true).2 (by decide)⟩

/-- C8: a run of the startup fetch loop consisting only of failures leaves
the stored catalog unchanged and performs no write; a run of failures
followed by the first success writes the fetched catalog exactly once; and
no trace of outcomes ever produces more than one write. -/
theorem C8_failed_fetch_preserves_catalog :
    (∀ (n : ℕ) (init : List DetectableGame),
        fetchLoopRun init (List.replicate n none) = (init, 0)) ∧
    (∀ (n : ℕ) (g init : List DetectableGame),
        fetchLoopRun init (List.replicate n none ++ [some g]) = (g, 1)) ∧
    (∀ (os : List (Option (List DetectableGame))) (init : List DetectableGame),
        (fetchLoopRun init os).2 ≤ 1) := by
  refine ⟨?_, ?_, ?_⟩
  · intro n init
    induction n with
    | zero => rfl
    | succ n ih => simpa [List.replicate_succ, fetchLoopRun] using ih
  · intro n g init
    induction n with
    | zero => rfl
    | succ n ih => simpa [List.replicate_succ, fetchLoopRun] using ih
  · intro os init
    induction os with
    | nil => simp [fetchLoopRun]
    | cons o rest ih => cases o <;> simp [fetchLoopRun, ih]

/-- C9: a scan cycle unconditionally overwrites `current_game` with the
cycle's detection result (the matched game name, or `none`); consequently
the post-cycle `current_game` is `some x` only if the cycle's matcher
paired some running process with a catalog signature named `x`. -/
theorem C9_current_game_overwritten (s : ScanState) (procs : List Name) :
    (scanCycle s procs).1.current_game =
      (detectGame procs s.watch_list).map Prod.fst ∧
    (∀ x : Name, (scanCycle s procs).1.current_game = some x →
        ∃ e : Name, detectGame procs s.watch_list = some (x, e)) := by
  refine ⟨rfl, ?_⟩
  intro x hx
  rcases Option.map_eq_some'.mp hx with ⟨⟨n, e⟩, hd, hn⟩
  exact ⟨e, by rw [hd]; exact congrArg (fun z => some (z, e)) hn⟩

/-- C9 witness: after a cycle with the `Game One` catalog and the process
`Game1.exe`, `current_game = some "Game One"` and indeed the detection
result pairs `Game One` with an executable. -/
theorem C9_current_game_overwritten_witness :
    ∃ e : Name, detectGame ["Game1.exe".toList] [gameOne] =
      some ("Game One".toList, e) :=
  (C9_current_game_overwritten ⟨[gameOne], none⟩ ["Game1.exe".toList]).2
    "Game One".toList (by decide)

/-- C10: signatures whose `executables` field is `none` are invisible to
the matcher: removing them from the catalog never changes the detection
result, and a catalog made only of such signatures never detects
anything. -/
theorem C10_null_executables_skipped :
    (∀ (procs : List Name) (catalog : List DetectableGame),
        detectGame procs (catalog.filter fun g => g.executables.isSome) =
          detectGame procs catalog) ∧
    (∀ (procs : List Name) (catalog : List DetectableGame),
        (∀ g ∈ catalog, g.executables = none) →
          detectGame procs catalog = none) := by
  constructor
  · intro procs catalog
    induction procs with
    | nil => rfl
    | cons p ps ih => simp [detectGame, findGameMatch_filter, ih]
  · intro procs catalog h
    induction procs with
    | nil => rfl
    | cons p ps ih => simp [detectGame, findGameMatch_all_none p catalog h, ih]

/-- C10 witness: a catalog holding a single null-`executables` signature
detects nothing even when a process of the same name is running. -/
theorem C10_null_executables_skipped_witness :
    detectGame ["Ghost".toList]
      [⟨"idG".toList, "Ghost".toList, none⟩] = none :=
  C10_null_executables_skipped.2 ["Ghost".toList]
    [⟨"idG".toList, "Ghost".toList, none⟩] (by decide)

end GameScanner
